import Mathlib

set_option maxRecDepth 8192

/-!
Verification of the UG96 cellular-modem driver (`src/UG96.js`).

JavaScript strings are embedded as `List Char` (or Lean `String` where the
code only compares whole lines).  `substr`, `substring`, `indexOf` and
`split(",")` are embedded with JS clamping semantics.  The driver's
`0|parms[1]` idiom ("trick here is to converted string into integer",
UG96.js line 410) is embedded as decimal parsing, and numeric fields of the
reassembly protocol are rendered canonically, matching the headers the modem
and the driver itself produce.  Array writes such as `sockData[i] += ...`
become pointwise updates of a `Nat`-indexed table.
-/

namespace UG96

/-- `MAXSOCKETS` from UG96.js. -/
def MAXSOCKETS : Nat := 12

/-! ## JS string primitives -/

/-- Does `p` occur at the head of `s`?  (Used to embed `s.substr(0, p.length) == p`.) -/
def hasPfx : List Char → List Char → Bool
  | [], _ => true
  | _ :: _, [] => false
  | p :: ps, c :: cs => p == c && hasPfx ps cs

/-- First index at which the pattern `pat` occurs in `s`: JS `s.indexOf(pat)`,
with `none` for the `-1` (absent) case. -/
def seqIdx (pat : List Char) : List Char → Option Nat
  | [] => if hasPfx pat [] then some 0 else none
  | c :: cs => if hasPfx pat (c :: cs) then some 0 else (seqIdx pat cs).map (· + 1)

/-- JS `s.substr(start, len)` for non-negative arguments. -/
def jsSubstrL (s : List Char) (start len : Nat) : List Char :=
  (s.drop start).take len

/-- JS `s.substring(a, b)` for non-negative arguments: both indices are clamped
to the string length and swapped if out of order. -/
def jsSubstringL (s : List Char) (a b : Nat) : List Char :=
  let a' := min a s.length
  let b' := min b s.length
  (s.drop (min a' b')).take (max a' b' - min a' b')

/-- JS `s.split(",")`. -/
def splitComma : List Char → List (List Char)
  | [] => [[]]
  | c :: cs =>
    if c = ',' then [] :: splitComma cs
    else
      match splitComma cs with
      | [] => [[c]]
      | p :: ps => (c :: p) :: ps

/-- Decimal digit characters. -/
def digitChar : Nat → Char
  | 0 => '0' | 1 => '1' | 2 => '2' | 3 => '3' | 4 => '4'
  | 5 => '5' | 6 => '6' | 7 => '7' | 8 => '8' | 9 => '9'
  | _ => '*'

/-- Canonical decimal rendering of a natural number (JS number-to-string). -/
def natDigits (n : Nat) : List Char :=
  if _h : n < 10 then [digitChar n]
  else natDigits (n / 10) ++ [digitChar (n % 10)]
decreasing_by exact Nat.div_lt_self (by omega) (by omega)

/-- One step of decimal accumulation. -/
def parsePush (a : Nat) (c : Char) : Nat := a * 10 + (c.toNat - 48)

/-- Decimal parsing of a digit string: the driver's `0|parms[k]`
string-to-integer conversion on the canonical numerals it exchanges. -/
def parseNat (s : List Char) : Nat := s.foldl parsePush 0

/-! ## URC reassembly (receiveHandler / receiveHandler2, UG96.js 398-447) -/

/-- `sockData[i] += d` as a pointwise table update. -/
def updAppend (bufs : Nat → List Char) (i : Nat) (d : List Char) : Nat → List Char :=
  fun j => if j = i then bufs j ++ d else bufs j

/-- The continuation token `"+D," + parms[0] + "," + (parms[1]-len) + ":"`
returned when a declared payload is still incomplete. -/
def dToken (i rem : Nat) : List Char :=
  '+' :: 'D' :: ',' :: natDigits i ++ ',' :: natDigits rem ++ [':']

/-- `receiveHandler(line)` (UG96.js 398-426): parses a
`+QIURC: "recv",<id>,<len>\r\n<data>` notification, appends the available
payload bytes to the addressed socket's buffer, and returns either the
trailing bytes for re-dispatch or a `+D` continuation token. -/
def receiveHandlerM (bufs : Nat → List Char) (line : List Char) :
    (Nat → List Char) × List Char :=
  match seqIdx ['\r', '\n'] line with
  | none => (bufs, line)
  | some colon =>
    let parms := splitComma (jsSubstringL line 15 colon)
    let p0 := parseNat (parms.getD 0 [])
    let p1 := parseNat (parms.getD 1 [])
    let len := line.length - (colon + 2)
    if p1 ≤ len then
      (updAppend bufs p0 (jsSubstrL line (colon + 2) p1), line.drop (colon + p1 + 3))
    else
      (updAppend bufs p0 (jsSubstrL line (colon + 2) len), dToken p0 (p1 - len))

/-- `receiveHandler2(line)` (UG96.js 427-447): consumes a
`+D,<id>,<remaining>:` continuation token followed by further payload bytes. -/
def receiveHandler2M (bufs : Nat → List Char) (line : List Char) :
    (Nat → List Char) × List Char :=
  match seqIdx [':'] line with
  | none => (bufs, line)
  | some colon =>
    let parms := splitComma (jsSubstringL line 3 colon)
    let p0 := parseNat (parms.getD 0 [])
    let p1 := parseNat (parms.getD 1 [])
    let len := line.length - (colon + 1)
    if p1 ≤ len then
      (updAppend bufs p0 (jsSubstrL line (colon + 1) p1), line.drop (colon + p1 + 1))
    else
      (updAppend bufs p0 (jsSubstrL line (colon + 1) len), dToken p0 (p1 - len))

/-- The 15-character fixed part `+QIURC: "recv",` of an incoming-data URC. -/
def recvPfx : List Char := "+QIURC: \"recv\",".data

/-- A complete incoming-data header declaring socket `i` and payload length `L`. -/
def recvHeader (i L : Nat) : List Char :=
  recvPfx ++ natDigits i ++ ',' :: natDigits L ++ ['\r', '\n']

/-! ## Socket table (UG96.js 83-97): `socks` entries are `undefined`, `true`,
`"Wait"`, or `"tobeclosed"`. -/

inductive SockState
  | unused
  | wait
  | connected
  | tobeclosed
deriving DecidableEq, Repr

/-- The `while (socks[sckt]!==undefined) sckt++` scan of `create`:
index of the first unused slot (entries beyond the array are unused). -/
def firstFree : List SockState → Nat
  | [] => 0
  | s :: rest => if s = SockState.unused then 0 else firstFree rest + 1

/-- JS array element assignment `a[i] = v`, growing the array when needed. -/
def setSock (l : List SockState) (i : Nat) (v : SockState) : List SockState :=
  if i < l.length then l.set i v
  else l ++ List.replicate (i - l.length) SockState.unused ++ [v]

/-- JS array element assignment for the per-socket data buffers. -/
def setData (l : List (List Char)) (i : Nat) (v : List Char) : List (List Char) :=
  if i < l.length then l.set i v
  else l ++ List.replicate (i - l.length) [] ++ [v]

/-- `netCallbacks.create(host, port)` for a defined `host` (UG96.js 257-279):
scan for the lowest free slot; if none is free below `MAXSOCKETS`, decrement
to the last client slot, issue `AT+QICLOSE` for it (its completion callback
clears the slot only after `create` has returned), and take that slot; in
either case mark the chosen slot `"Wait"` and clear its data buffer.  Returns
the chosen id together with the tables as they stand when `create` returns. -/
def createM (socks : List SockState) (sockData : List (List Char)) :
    Nat × List SockState × List (List Char) :=
  let sckt := firstFree socks
  if MAXSOCKETS ≤ sckt then
    let sckt' := sckt - 1
    (sckt', setSock socks sckt' SockState.wait, setData sockData sckt' [])
  else
    (sckt, setSock socks sckt SockState.wait, setData sockData sckt [])

/-! ## recv (UG96.js 300-318) -/

inductive RecvRet
  | bytes (s : List Char)
  | closeReq
deriving DecidableEq, Repr

/-- `netCallbacks.recv(sckt, maxLen)`: empty result while the engine is busy or
the slot is still connecting; otherwise drain up to `maxLen` buffered bytes;
`-1` (close request) once the buffer is empty and the slot is gone or closing. -/
def recvM (atBusy : Bool) (socks : List SockState) (bufs : List (List Char))
    (sckt maxLen : Nat) : RecvRet × List (List Char) :=
  if atBusy = true ∨ socks.getD sckt SockState.unused = SockState.wait then
    (RecvRet.bytes [], bufs)
  else if bufs.getD sckt [] ≠ [] then
    if maxLen < (bufs.getD sckt []).length then
      (RecvRet.bytes ((bufs.getD sckt []).take maxLen),
        bufs.set sckt ((bufs.getD sckt []).drop maxLen))
    else (RecvRet.bytes (bufs.getD sckt []), bufs.set sckt [])
  else if socks.getD sckt SockState.unused = SockState.unused then
    (RecvRet.closeReq, bufs)
  else if socks.getD sckt SockState.unused = SockState.tobeclosed then
    (RecvRet.closeReq, bufs)
  else (RecvRet.bytes [], bufs)

/-! ## send (UG96.js 321-379) -/

/-- The synchronous effects of one `netCallbacks.send(sckt, data)` call:
its return value, the raw writes it pushes to the AT engine before returning,
the `busy` flag afterwards, and the transient handlers it arms. -/
structure SendOut where
  ret : Int
  writes : List String
  busyAfter : Bool
  promptArmed : Bool
  lineHandlers : List String
deriving DecidableEq, Repr

def sendM (busy atBusy : Bool) (socks : List SockState) (sckt : Nat)
    (data : String) : SendOut :=
  if busy = true ∨ atBusy = true ∨ socks.getD sckt SockState.unused = SockState.wait then
    ⟨0, [], busy, false, []⟩
  else if socks.getD sckt SockState.unused = SockState.tobeclosed then
    ⟨-1, [], busy, false, []⟩
  else if socks.getD sckt SockState.unused = SockState.unused then
    ⟨-1, [], busy, false, []⟩
  else if 1460 < data.length then
    ⟨-1, [], busy, false, []⟩
  else
    ⟨(data.length : Int),
      ["AT+QISEND=" ++ toString sckt ++ "," ++ toString data.length ++ "\r\n"],
      true, true, ["SEND OK", "SEND FAIL", "ERROR"]⟩

/-- State visible to the transient `SEND OK` / `SEND FAIL` / `ERROR` line
handlers armed by `send`. -/
structure SendLineEnv where
  busy : Bool
  lineHandlers : List String
  socks : List SockState
  rspTimerArmed : Bool
deriving DecidableEq, Repr

/-- `at.unregisterLine` for the three transient send handlers. -/
def unregisterSendLines (hs : List String) : List String :=
  hs.filter (fun h => !(h == "SEND OK" || h == "SEND FAIL" || h == "ERROR"))

/-- The `SEND FAIL` line handler (UG96.js 354-363): unregisters the three
transient handlers, cancels the response guard timer and clears `busy`.
The source's `socks[sckt]=="tobeclosed"` is a comparison, not an assignment,
so the socket table is left untouched. -/
def sendFailHandlerM (sckt : Nat) (e : SendLineEnv) : SendLineEnv :=
  let _ := sckt
  { busy := false
    lineHandlers := unregisterSendLines e.lineHandlers
    socks := e.socks
    rspTimerArmed := false }

/-- The `ERROR` line handler (UG96.js 366-375): identical effects, including
the no-op `socks[sckt]=="tobeclosed"` comparison. -/
def sendErrorHandlerM (sckt : Nat) (e : SendLineEnv) : SendLineEnv :=
  let _ := sckt
  { busy := false
    lineHandlers := unregisterSendLines e.lineHandlers
    socks := e.socks
    rspTimerArmed := false }

/-! ## init lifecycle state machine (UG96.js 599-869)

`init`'s closure variables (`s`, `atSync`, `attRetry`, `signal_quality_report`)
plus the issued AT commands, the invocations of the completion callback
(`none` = `callback(null)`, `some e` = `callback(e)`), and the cached `ccid`
form the observable trace.  Each AT-engine response line (or `none` for a
timeout) drives one step of the `switch` in `cb`. -/

structure InitState where
  s : Nat
  atSync : Nat
  attRetry : Nat
  sigReport : Bool
deriving DecidableEq, Repr

structure InitTrace where
  st : InitState
  cmds : List String
  cbs : List (Option String)
  ccid : Option String
deriving DecidableEq, Repr

/-- Record an `at.cmd` issue together with the state advance `s := s'`. -/
def emit (t : InitTrace) (s' : Nat) (c : String) : InitTrace :=
  { t with st := { t.st with s := s' }, cmds := t.cmds ++ [c] }

/-- Record one invocation of the completion callback. -/
def cbEmit (t : InitTrace) (e : Option String) : InitTrace :=
  { t with cbs := t.cbs ++ [e] }

/-- JS string concatenation with a possibly `undefined` value. -/
def rShow : Option String → String
  | none => "undefined"
  | some s => s

/-- Embeds `s.substring(a, b)` on Lean strings. -/
def jsSubstringStr (s : String) (a b : Nat) : String :=
  ⟨jsSubstringL s.data a b⟩

/-- `s.substr(0, p.length) == p` on Lean strings. -/
def strHasPfx (p s : String) : Bool := hasPfx p.data s.data

/-- `AT_SYNCHRO` case (UG96.js 607-637). -/
def stepSync (t : InitTrace) (r : Option String) : InitTrace :=
  if r = some "AT" then t
  else if r = some "OK" then emit t 1 "ATV1\r\n"
  else
    let n := t.st.atSync + 1
    if n ≤ 10 then
      { t with st := { t.st with atSync := n }, cmds := t.cmds ++ ["AT\r\n"] }
    else
      { t with st := { t.st with atSync := n },
               cbs := t.cbs ++ [some ("Error in AT sync: " ++ rShow r)] }

/-- `AT_RSP_FORMAT` case (UG96.js 638-659). -/
def stepRspFormat (t : InitTrace) (r : Option String) : InitTrace :=
  if r = some "OK" then emit t 2 "ATE0\r\n"
  else if r = some "ATV1" then t
  else
    match r with
    | some str => if str = "" then t else cbEmit t (some ("Error in ATV1: " ++ str))
    | none => cbEmit t (some "ATV1 time-out !!!")

/-- `AT_ECHO_OFF` case (UG96.js 661-695). -/
def stepEchoOff (fc : Bool) (t : InitTrace) (r : Option String) : InitTrace :=
  if r = some "IIIIATE0" ∨ r = some "IIIIÿATE0" ∨ r = some "ATE0" then t
  else if r = some "OK" then
    if fc then emit t 10 "AT+IFC=2,2\r\n" else emit t 3 "AT+CPIN?\r\n"
  else if r = some "atE0" then emit t 3 "AT+CPIN?\r\n"
  else
    match r with
    | some str => if str = "" then t else cbEmit t (some ("Error in ATE0: " ++ str))
    | none => emit t 3 "AT+CPIN?\r\n"

/-- `AT_HW_FLOW_CONTROL` case (UG96.js 697-713): a failure is reported through
the completion callback, and the machine still advances to the SIM check. -/
def stepHwFlow (t : InitTrace) (r : Option String) : InitTrace :=
  if r = some "OK" then emit t 3 "AT+CPIN?\r\n"
  else emit (cbEmit t (some "HW flow control establismnent failed")) 3 "AT+CPIN?\r\n"

/-- `AT_CPIN` case (UG96.js 715-735). -/
def stepCpin (t : InitTrace) (r : Option String) : InitTrace :=
  if r = some "+CPIN: READY" then t
  else if r = some "OK" then emit t 4 "AT+QCCID\r\n"
  else
    match r with
    | some str => if str = "" then t else cbEmit t (some ("Error in CPIN: " ++ str))
    | none => cbEmit t (some "AT+CPIN time-out !!!")

/-- `AT_SHOW_SIM_ID` case (UG96.js 737-761). -/
def stepSimId (t : InitTrace) (r : Option String) : InitTrace :=
  match r with
  | some str =>
    if strHasPfx "+QCCID:" str then
      { t with ccid := some (jsSubstringStr str 8 (str.length - 1)) }
    else if str = "OK" then emit t 5 "AT+CSQ\r\n"
    else if str = "" then t
    else cbEmit t (some ("Error in QCCID: " ++ str))
  | none => cbEmit t (some "AT+QCCID time-out !!!")

/-- `AT_QUERY_SIGNAL_QUALITY` case (UG96.js 763-801). -/
def stepCsq (t : InitTrace) (r : Option String) : InitTrace :=
  match r with
  | some str =>
    if strHasPfx "+CSQ:" str then
      { t with st := { t.st with sigReport := !(strHasPfx "+CSQ: 99,99" str) } }
    else if str = "OK" then
      if t.st.sigReport then emit t 6 "AT+CGATT=1\r\n"
      else emit t 5 "AT+CSQ\r\n"
    else if str = "" then t
    else cbEmit t (some ("Error in QCCID: " ++ str))
  | none => cbEmit t (some "AT+CSQ time-out !!!")

/-- `AT_PS_ATTACHMENT` case (UG96.js 803-827): the first failure diverts to
automatic operator selection, failures two and three retry the attach with
linear backoff, and the fourth failure is terminal.  A timeout (`undefined`)
matches no branch and does nothing. -/
def stepAttach (t : InitTrace) (r : Option String) : InitTrace :=
  match r with
  | some str =>
    if str = "OK" then emit t 9 "AT+COPS?\r\n"
    else if str = "" then t
    else
      let n := t.st.attRetry + 1
      if n = 1 then
        { t with st := { t.st with s := 7, attRetry := n }, cmds := t.cmds ++ ["AT+COPS=0\r\n"] }
      else if n < 4 then
        { t with st := { t.st with s := 6, attRetry := n }, cmds := t.cmds ++ ["AT+CGATT=1\r\n"] }
      else
        { t with st := { t.st with attRetry := n },
                 cbs := t.cbs ++ [some ("Unrecoverable Error, PS attachment failed: " ++ str)] }
  | none => t

/-- `AT_AUTOMATIC_OPERATOR_SELECTION` case (UG96.js 829-834): the return code
is not checked; the machine asks for the COPS status. -/
def stepAutoOp (t : InitTrace) (_r : Option String) : InitTrace :=
  emit t 8 "AT+COPS?\r\n"

/-- `AT_LIST_CURRENT_OPERATORS` case (UG96.js 836-841): blind attach retry. -/
def stepListOp (t : InitTrace) (_r : Option String) : InitTrace :=
  emit t 6 "AT+CGATT=1\r\n"

/-- `AT_CURRENT_OPERATOR` case (UG96.js 843-863). -/
def stepCurrentOp (t : InitTrace) (r : Option String) : InitTrace :=
  match r with
  | some str =>
    if str = "OK" then cbEmit t none
    else if strHasPfx "+COPS:" str then t
    else if str = "" then t
    else cbEmit t (some ("Error in COPS? " ++ str))
  | none => cbEmit t (some "AT+COPS? time-out !!!")

/-- One dispatch of `init`'s `cb` on a response line. -/
def initStep (fc : Bool) (t : InitTrace) (r : Option String) : InitTrace :=
  match t.st.s with
  | 0 => stepSync t r
  | 1 => stepRspFormat t r
  | 2 => stepEchoOff fc t r
  | 3 => stepCpin t r
  | 4 => stepSimId t r
  | 5 => stepCsq t r
  | 6 => stepAttach t r
  | 7 => stepAutoOp t r
  | 8 => stepListOp t r
  | 9 => stepCurrentOp t r
  | 10 => stepHwFlow t r
  | _ => t

/-- `init(callback)`: the first `AT` probe is issued at once (UG96.js 868) and
then each response in `rs` drives one step of `cb`. -/
def initRun (fc : Bool) (rs : List (Option String)) : InitTrace :=
  rs.foldl (initStep fc) { st := ⟨0, 0, 0, false⟩, cmds := ["AT\r\n"], cbs := [], ccid := none }

/-! ## connect (UG96.js 917-952) -/

/-- Phase 1 of `connect` (`AT+QIACT=1`): `OK` and timeout both report success;
any other truthy line reports an error; a falsy line also reaches
`callback(null)`. -/
def connectPhase1 : Option String → Option String
  | none => none
  | some t => if t = "OK" then none else if t = "" then none else some ("Error in 1: " ++ t)

/-- The completion-callback invocations of one `connect` call, given the
response to `AT+QICSGP` and (when that phase succeeds) to `AT+QIACT`.
On a configure-phase timeout the code only logs and issues nothing more. -/
def connectCbs (r0 r1 : Option String) : List (Option String) :=
  match r0 with
  | none => []
  | some s =>
    if s = "OK" then [connectPhase1 r1]
    else if s = "" then []
    else [some ("Error in 0: " ++ s)]

/-! ## Geolocation (UG96.js 977-1019) -/

structure GeoState where
  longlat : String
  geoPos : Bool
deriving DecidableEq, Repr

/-- Result of one dispatch of the `geoLocStart` poll callback: the new state,
whether a next poll was scheduled, and whether the callback keeps waiting for
the terminal `OK` of the current exchange. -/
structure GeoOut where
  g : GeoState
  resched : Bool
  keepWaiting : Bool
deriving DecidableEq, Repr

/-- `pos_space = r.indexOf(" "); longlat = r.substring(1+pos_space, r.length)`
(UG96.js 993-995), with JS `indexOf` returning `-1` when absent. -/
def qcellExtract (r : String) : String :=
  match seqIdx [' '] r.data with
  | none => ⟨jsSubstringL r.data 0 r.data.length⟩
  | some p => ⟨jsSubstringL r.data (p + 1) r.data.length⟩

/-- The poll callback of `geoLocStart` (UG96.js 986-1009).  A timeout or an
unrecognized line clears the cached position and then consults `geoPos` for
rescheduling; `OK` only consults `geoPos`; a `+QCELLLOC:` line stores the fix
and returns early to keep waiting for `OK`, skipping the reschedule check. -/
def geoCb (g : GeoState) (r : Option String) : GeoOut :=
  match r with
  | none => ⟨⟨"", g.geoPos⟩, g.geoPos, false⟩
  | some str =>
    if str = "OK" then ⟨g, g.geoPos, false⟩
    else if strHasPfx "+QCELLLOC:" str then ⟨⟨qcellExtract str, g.geoPos⟩, false, true⟩
    else ⟨⟨"", g.geoPos⟩, g.geoPos, false⟩

/-- `geoLocStop()` (UG96.js 1013-1019): stop the poll loop and clear the cache. -/
def geoLocStopM (_g : GeoState) : GeoState := ⟨"", false⟩

/-! ## Concrete response sequences and payloads used in the theorems -/

/-- Responses driving `init` (no flow control) up to the first `AT+CGATT=1`. -/
def attachPfxRs : List (Option String) :=
  [some "OK", some "OK", some "OK", some "OK", some "OK", some "+CSQ: 15,2", some "OK"]

/-- Commands `init` has issued once the first `AT+CGATT=1` is out. -/
def attachPfxCmds : List String :=
  ["AT\r\n", "ATV1\r\n", "ATE0\r\n", "AT+CPIN?\r\n", "AT+QCCID\r\n", "AT+CSQ\r\n",
    "AT+CGATT=1\r\n"]

/-- Responses driving `init` (flow control configured) through a failed
`AT+IFC=2,2` exchange and then to a successful completion. -/
def hwFlowFailRs : List (Option String) :=
  [some "OK", some "OK", some "OK", some "ERROR", some "OK", some "OK",
    some "+CSQ: 15,2", some "OK", some "OK", some "+COPS: 0,0,\"operator\",2", some "OK"]

/-- A 1461-byte payload, one byte over the `AT+QISEND` segment limit. -/
def bigPayload : String := ⟨List.replicate 1461 'a'⟩

/-! # Supporting lemmas -/

theorem hasPfx_append (p rest : List Char) : hasPfx p (p ++ rest) = true := by
  induction p with
  | nil => rfl
  | cons c cs ih => simp [hasPfx, ih]

theorem seqIdx_append {c : Char} {pat a b : List Char}
    (ha : c ∉ a) (hb : hasPfx (c :: pat) b = true) :
    seqIdx (c :: pat) (a ++ b) = some a.length := by
  induction a with
  | nil =>
    cases b with
    | nil => simp [hasPfx] at hb
    | cons x xs => simp [seqIdx, hb]
  | cons y ys ih =>
    have hy : ¬ (c = y) := fun he => ha (by simp [he])
    have hy' : c ∉ ys := fun hm => ha (List.mem_cons_of_mem _ hm)
    have hpfx : hasPfx (c :: pat) (y :: (ys ++ b)) = false := by
      simp [hasPfx, hy]
    rw [show ((y :: ys) ++ b) = y :: (ys ++ b) from rfl]
    rw [seqIdx, hpfx]
    simp [ih hy']

theorem dropLenAppend (a b : List Char) : (a ++ b).drop a.length = b := by
  induction a with
  | nil => rfl
  | cons x xs ih => simp [ih]

theorem takeLenAppend (a b : List Char) : (a ++ b).take a.length = a := by
  induction a with
  | nil => rfl
  | cons x xs ih => simp [ih]

theorem dropAddAppend (a b : List Char) (n : Nat) :
    (a ++ b).drop (a.length + n) = b.drop n := by
  induction a with
  | nil => simp
  | cons x xs ih => simpa [Nat.succ_add] using ih

theorem jsSubstringL_append (a m b : List Char) :
    jsSubstringL (a ++ (m ++ b)) a.length (a.length + m.length) = m := by
  simp only [jsSubstringL, List.length_append]
  have h1 : min a.length (a.length + (m.length + b.length)) = a.length := by omega
  have h2 : min (a.length + m.length) (a.length + (m.length + b.length)) =
      a.length + m.length := by omega
  rw [h1, h2]
  have h3 : min a.length (a.length + m.length) = a.length := by omega
  have h4 : max a.length (a.length + m.length) = a.length + m.length := by omega
  rw [h3, h4, dropLenAppend]
  have h5 : a.length + m.length - a.length = m.length := by omega
  rw [h5, takeLenAppend]

theorem splitComma_of_not_mem {l : List Char} (h : ',' ∉ l) : splitComma l = [l] := by
  induction l with
  | nil => rfl
  | cons c cs ih =>
    have hc : ¬ (c = ',') := fun he => h (by simp [he])
    have h' : ',' ∉ cs := fun hm => h (List.mem_cons_of_mem _ hm)
    simp only [splitComma, hc, if_false, ih h']

theorem splitComma_append {a : List Char} (h : ',' ∉ a) (b : List Char) :
    splitComma (a ++ ',' :: b) = a :: splitComma b := by
  induction a with
  | nil => simp [splitComma]
  | cons c cs ih =>
    have hc : ¬ (c = ',') := fun he => h (by simp [he])
    have h' : ',' ∉ cs := fun hm => h (List.mem_cons_of_mem _ hm)
    simp only [List.cons_append, splitComma, hc, if_false, List.append_eq, ih h']

theorem natDigits_lt {n : Nat} (h : n < 10) : natDigits n = [digitChar n] := by
  rw [natDigits]
  simp [h]

theorem natDigits_ge {n : Nat} (h : ¬ n < 10) :
    natDigits n = natDigits (n / 10) ++ [digitChar (n % 10)] := by
  conv_lhs => rw [natDigits]
  simp [h]

theorem digitChar_toNat {d : Nat} (h : d < 10) : (digitChar d).toNat = 48 + d := by
  interval_cases d <;> rfl

theorem foldl_parsePush_digits (n : Nat) :
    ∀ a : Nat, (natDigits n).foldl parsePush a = a * 10 ^ (natDigits n).length + n := by
  induction n using Nat.strong_induction_on with
  | _ n ih =>
    intro a
    by_cases h : n < 10
    · rw [natDigits_lt h]
      simp only [List.foldl_cons, List.foldl_nil, parsePush, digitChar_toNat h,
        List.length_singleton, pow_one]
      omega
    · rw [natDigits_ge h]
      rw [List.foldl_append]
      rw [ih (n / 10) (Nat.div_lt_self (by omega) (by omega)) a]
      have hmod : n % 10 < 10 := Nat.mod_lt _ (by omega)
      simp only [List.foldl_cons, List.foldl_nil, parsePush, digitChar_toNat hmod,
        List.length_append, List.length_singleton]
      have h2 : n / 10 * 10 + n % 10 = n := by omega
      have h48 : 48 + n % 10 - 48 = n % 10 := by omega
      rw [h48, pow_succ]
      calc (a * 10 ^ (natDigits (n / 10)).length + n / 10) * 10 + n % 10
          = a * (10 ^ (natDigits (n / 10)).length * 10) + (n / 10 * 10 + n % 10) := by ring
        _ = a * (10 ^ (natDigits (n / 10)).length * 10) + n := by rw [h2]

theorem parseNat_natDigits (n : Nat) : parseNat (natDigits n) = n := by
  have := foldl_parsePush_digits n 0
  simpa [parseNat] using this

theorem natDigits_mem_digit {n : Nat} : ∀ c ∈ natDigits n, 48 ≤ c.toNat ∧ c.toNat ≤ 57 := by
  induction n using Nat.strong_induction_on with
  | _ n ih =>
    by_cases h : n < 10
    · rw [natDigits_lt h]
      intro c hc
      simp only [List.mem_singleton] at hc
      subst hc
      rw [digitChar_toNat h]
      omega
    · rw [natDigits_ge h]
      intro c hc
      rw [List.mem_append] at hc
      rcases hc with hc | hc
      · exact ih (n / 10) (Nat.div_lt_self (by omega) (by omega)) c hc
      · simp only [List.mem_singleton] at hc
        subst hc
        have hmod : n % 10 < 10 := Nat.mod_lt _ (by omega)
        rw [digitChar_toNat hmod]
        omega

theorem not_mem_natDigits {x : Char} (hx : x.toNat < 48 ∨ 57 < x.toNat) (n : Nat) :
    x ∉ natDigits n := by
  intro hmem
  have := natDigits_mem_digit x hmem
  omega

theorem updAppend_updAppend (bufs : Nat → List Char) (i : Nat) (d1 d2 : List Char) :
    updAppend (updAppend bufs i d1) i d2 = updAppend bufs i (d1 ++ d2) := by
  funext j
  simp only [updAppend]
  split
  · rw [List.append_assoc]
  · rfl

/-- One `receiveHandler` dispatch on a complete header followed by `xs`:
if the declared length `L` is available it appends `xs.take L` to socket `i`
and returns `xs.drop (L + 1)` (one byte past the payload end); otherwise it
appends all of `xs` and returns the `+D` continuation token. -/
theorem receiveHandlerM_header (bufs : Nat → List Char) (i L : Nat) (xs : List Char) :
    receiveHandlerM bufs (recvHeader i L ++ xs) =
      if L ≤ xs.length then
        (updAppend bufs i (xs.take L), xs.drop (L + 1))
      else
        (updAppend bufs i xs, dToken i (L - xs.length)) := by
  have hIc : (',' : Char) ∉ natDigits i := not_mem_natDigits (Or.inl (by decide)) i
  have hLc : (',' : Char) ∉ natDigits L := not_mem_natDigits (Or.inl (by decide)) L
  have hline : recvHeader i L ++ xs =
      (recvPfx ++ (natDigits i ++ ',' :: natDigits L)) ++ ('\r' :: '\n' :: xs) := by
    simp [recvHeader, List.append_assoc]
  have hassoc : recvHeader i L ++ xs =
      ((recvPfx ++ (natDigits i ++ ',' :: natDigits L)) ++ ['\r', '\n']) ++ xs := by
    simp [recvHeader, List.append_assoc]
  have hr : ('\r' : Char) ∉ recvPfx ++ (natDigits i ++ ',' :: natDigits L) := by
    intro hm
    rcases List.mem_append.mp hm with h | h
    · revert h; decide
    · rcases List.mem_append.mp h with h | h
      · exact not_mem_natDigits (Or.inl (by decide)) i h
      · rcases List.mem_cons.mp h with h | h
        · exact absurd h (by decide)
        · exact not_mem_natDigits (Or.inl (by decide)) L h
  have hColon : seqIdx ['\r', '\n'] (recvHeader i L ++ xs) =
      some (recvPfx ++ (natDigits i ++ ',' :: natDigits L)).length := by
    rw [hline]
    exact seqIdx_append hr (by simp [hasPfx])
  have h15 : recvPfx.length = 15 := by decide
  have hsub : jsSubstringL (recvHeader i L ++ xs) 15
      (recvPfx ++ (natDigits i ++ ',' :: natDigits L)).length =
      natDigits i ++ ',' :: natDigits L := by
    rw [hline, List.append_assoc, List.length_append, ← h15]
    exact jsSubstringL_append recvPfx (natDigits i ++ ',' :: natDigits L) _
  have hsplit : splitComma (natDigits i ++ ',' :: natDigits L) =
      [natDigits i, natDigits L] := by
    rw [splitComma_append hIc, splitComma_of_not_mem hLc]
  have hcrlen : ((recvPfx ++ (natDigits i ++ ',' :: natDigits L)) ++ ['\r', '\n']).length =
      (recvPfx ++ (natDigits i ++ ',' :: natDigits L)).length + 2 := by
    simp
    omega
  have hdrop2 : (recvHeader i L ++ xs).drop
      ((recvPfx ++ (natDigits i ++ ',' :: natDigits L)).length + 2) = xs := by
    rw [hassoc, ← hcrlen, dropLenAppend]
  have hlen : (recvHeader i L ++ xs).length -
      ((recvPfx ++ (natDigits i ++ ',' :: natDigits L)).length + 2) = xs.length := by
    rw [hassoc]
    simp only [List.length_append, List.length_cons, List.length_nil]
    omega
  have hdrop3 : (recvHeader i L ++ xs).drop
      ((recvPfx ++ (natDigits i ++ ',' :: natDigits L)).length + L + 3) = xs.drop (L + 1) := by
    rw [hassoc]
    have h2 : (recvPfx ++ (natDigits i ++ ',' :: natDigits L)).length + L + 3 =
        ((recvPfx ++ (natDigits i ++ ',' :: natDigits L)) ++ ['\r', '\n']).length + (L + 1) := by
      rw [hcrlen]; omega
    rw [h2, dropAddAppend]
  simp only [receiveHandlerM, hColon, hsub, hsplit]
  simp only [List.getD_cons_zero, List.getD_cons_succ, parseNat_natDigits, hlen]
  by_cases hL : L ≤ xs.length
  · rw [if_pos hL, if_pos hL]
    simp only [jsSubstrL, hdrop2, hdrop3]
  · rw [if_neg hL, if_neg hL]
    simp only [jsSubstrL, hdrop2, List.take_length]

/-- One `receiveHandler2` dispatch on a continuation token declaring `R`
outstanding bytes followed by `xs`: if `R` bytes are available it appends
`xs.take R` to socket `i` and returns exactly `xs.drop R`; otherwise it
appends all of `xs` and returns a new continuation token. -/
theorem receiveHandler2M_token (bufs : Nat → List Char) (i R : Nat) (xs : List Char) :
    receiveHandler2M bufs (dToken i R ++ xs) =
      if R ≤ xs.length then
        (updAppend bufs i (xs.take R), xs.drop R)
      else
        (updAppend bufs i xs, dToken i (R - xs.length)) := by
  have hIc : (',' : Char) ∉ natDigits i := not_mem_natDigits (Or.inl (by decide)) i
  have hRc : (',' : Char) ∉ natDigits R := not_mem_natDigits (Or.inl (by decide)) R
  have hline : dToken i R ++ xs =
      (['+', 'D', ','] ++ (natDigits i ++ ',' :: natDigits R)) ++ (':' :: xs) := by
    simp [dToken, List.append_assoc]
  have hassoc : dToken i R ++ xs =
      ((['+', 'D', ','] ++ (natDigits i ++ ',' :: natDigits R)) ++ [':']) ++ xs := by
    simp [dToken, List.append_assoc]
  have hc : (':' : Char) ∉ ['+', 'D', ','] ++ (natDigits i ++ ',' :: natDigits R) := by
    intro hm
    rcases List.mem_append.mp hm with h | h
    · revert h; decide
    · rcases List.mem_append.mp h with h | h
      · exact not_mem_natDigits (Or.inr (by decide)) i h
      · rcases List.mem_cons.mp h with h | h
        · exact absurd h (by decide)
        · exact not_mem_natDigits (Or.inr (by decide)) R h
  have hColon : seqIdx [':'] (dToken i R ++ xs) =
      some (['+', 'D', ','] ++ (natDigits i ++ ',' :: natDigits R)).length := by
    rw [hline]
    exact seqIdx_append hc (by simp [hasPfx])
  have h3 : (['+', 'D', ','] : List Char).length = 3 := by decide
  have hsub : jsSubstringL (dToken i R ++ xs) 3
      (['+', 'D', ','] ++ (natDigits i ++ ',' :: natDigits R)).length =
      natDigits i ++ ',' :: natDigits R := by
    rw [hline, List.append_assoc, List.length_append, ← h3]
    exact jsSubstringL_append ['+', 'D', ','] (natDigits i ++ ',' :: natDigits R) _
  have hsplit : splitComma (natDigits i ++ ',' :: natDigits R) =
      [natDigits i, natDigits R] := by
    rw [splitComma_append hIc, splitComma_of_not_mem hRc]
  have hclen : ((['+', 'D', ','] ++ (natDigits i ++ ',' :: natDigits R)) ++ [':']).length =
      (['+', 'D', ','] ++ (natDigits i ++ ',' :: natDigits R)).length + 1 := by
    simp
    omega
  have hdrop1 : (dToken i R ++ xs).drop
      ((['+', 'D', ','] ++ (natDigits i ++ ',' :: natDigits R)).length + 1) = xs := by
    rw [hassoc, ← hclen, dropLenAppend]
  have hlen : (dToken i R ++ xs).length -
      ((['+', 'D', ','] ++ (natDigits i ++ ',' :: natDigits R)).length + 1) = xs.length := by
    rw [hassoc]
    simp only [List.length_append, List.length_cons, List.length_nil]
    omega
  have hdropR : (dToken i R ++ xs).drop
      ((['+', 'D', ','] ++ (natDigits i ++ ',' :: natDigits R)).length + R + 1) =
      xs.drop R := by
    rw [hassoc]
    have h2 : (['+', 'D', ','] ++ (natDigits i ++ ',' :: natDigits R)).length + R + 1 =
        ((['+', 'D', ','] ++ (natDigits i ++ ',' :: natDigits R)) ++ [':']).length + R := by
      rw [hclen]; omega
    rw [h2, dropAddAppend]
  simp only [receiveHandler2M, hColon, hsub, hsplit]
  simp only [List.getD_cons_zero, List.getD_cons_succ, parseNat_natDigits, hlen]
  by_cases hR : R ≤ xs.length
  · rw [if_pos hR, if_pos hR]
    simp only [jsSubstrL, hdrop1, hdropR]
  · rw [if_neg hR, if_neg hR]
    simp only [jsSubstrL, hdrop1, List.take_length]

/-! # Claims -/

/-- Claim C2: reassembly is split-invariant.  For every socket id `i`, declared
payload length `L` and split point `k ≤ L`, dispatching the complete header
plus the first `k` payload bytes to `receiveHandler`, then its returned
continuation together with the remaining `L - k` bytes to `receiveHandler2`,
leaves every socket buffer equal to a single dispatch of the complete header
plus all `L` payload bytes. -/
theorem reassembly_split_invariant (bufs : Nat → List Char) (i L k : Nat)
    (payload : List Char) (hlen : payload.length = L) (hk : k ≤ L) :
    (receiveHandler2M (receiveHandlerM bufs (recvHeader i L ++ payload.take k)).1
        ((receiveHandlerM bufs (recvHeader i L ++ payload.take k)).2 ++ payload.drop k)).1
      = (receiveHandlerM bufs (recvHeader i L ++ payload)).1 := by
  have hfull : receiveHandlerM bufs (recvHeader i L ++ payload)
      = (updAppend bufs i (payload.take L), payload.drop (L + 1)) := by
    rw [receiveHandlerM_header, if_pos (by omega)]
  have htakeL : payload.take L = payload := by
    rw [← hlen]
    exact List.take_length _
  rcases Nat.lt_or_ge k L with hkL | hkL
  · have htk : (payload.take k).length = k := by
      rw [List.length_take]
      omega
    have hne : ¬ L ≤ (payload.take k).length := by
      rw [htk]
      omega
    have h1 : receiveHandlerM bufs (recvHeader i L ++ payload.take k)
        = (updAppend bufs i (payload.take k), dToken i (L - k)) := by
      rw [receiveHandlerM_header, if_neg hne, htk]
    have hdk : (payload.drop k).length = L - k := by
      rw [List.length_drop]
      omega
    simp only [h1]
    rw [receiveHandler2M_token, if_pos (by rw [hdk])]
    have hdt : (payload.drop k).take (L - k) = payload.drop k := by
      rw [← hdk]
      exact List.take_length _
    simp only [hfull, hdt, updAppend_updAppend, List.take_append_drop, htakeL]
  · have hkL' : k = L := Nat.le_antisymm hk hkL
    subst hkL'
    rw [htakeL] at hfull ⊢
    have hdropk : payload.drop k = [] := by
      rw [← hlen]
      exact List.drop_length _
    simp only [hfull, hdropk, List.append_nil]
    have hdropk1 : payload.drop (k + 1) = [] := List.drop_eq_nil_of_le (by omega)
    rw [hdropk1]
    rfl

/-- Witness for C2 at socket 0, declared length 2, split point 1. -/
theorem reassembly_split_invariant_witness :
    (('a' :: 'b' :: ([] : List Char)).length = 2 ∧ 1 ≤ 2) ∧
    (receiveHandler2M
        (receiveHandlerM (fun _ => []) (recvHeader 0 2 ++ ('a' :: 'b' :: []).take 1)).1
        ((receiveHandlerM (fun _ => []) (recvHeader 0 2 ++ ('a' :: 'b' :: []).take 1)).2 ++
          ('a' :: 'b' :: []).drop 1)).1
      = (receiveHandlerM (fun _ => []) (recvHeader 0 2 ++ ('a' :: 'b' :: []))).1 :=
  ⟨⟨by decide, by decide⟩,
    reassembly_split_invariant (fun _ => []) 0 2 1 ('a' :: 'b' :: []) (by decide) (by decide)⟩

/-- Claim C10: on a single dispatch carrying a complete header, the full
payload and a non-empty trailer, `receiveHandler` returns the trailing input
starting one byte past the payload end (the byte at the boundary is dropped
and never re-dispatched), while `receiveHandler2` in the same situation
returns the trailing input intact. -/
theorem trailing_byte_discard_asymmetry (bufs : Nat → List Char) (i L : Nat)
    (payload trailing : List Char) (hlen : payload.length = L) (ht : trailing ≠ []) :
    receiveHandlerM bufs (recvHeader i L ++ (payload ++ trailing))
        = (updAppend bufs i payload, trailing.drop 1) ∧
      receiveHandler2M bufs (dToken i L ++ (payload ++ trailing))
        = (updAppend bufs i payload, trailing) := by
  have hL : L ≤ (payload ++ trailing).length := by
    rw [List.length_append]
    omega
  constructor
  · rw [receiveHandlerM_header, if_pos hL, ← hlen, takeLenAppend, dropAddAppend]
  · rw [receiveHandler2M_token, if_pos hL, ← hlen, takeLenAppend, dropLenAppend]

/-- Witness for C10 at socket 0, payload `"a"`, trailer `"XY"`. -/
theorem trailing_byte_discard_asymmetry_witness :
    ((['a'] : List Char).length = 1 ∧ (['X', 'Y'] : List Char) ≠ []) ∧
    (receiveHandlerM (fun _ => []) (recvHeader 0 1 ++ (['a'] ++ ['X', 'Y']))
        = (updAppend (fun _ => []) 0 ['a'], (['X', 'Y'] : List Char).drop 1) ∧
      receiveHandler2M (fun _ => []) (dToken 0 1 ++ (['a'] ++ ['X', 'Y']))
        = (updAppend (fun _ => []) 0 ['a'], (['X', 'Y'] : List Char))) :=
  ⟨⟨by decide, by decide⟩,
    trailing_byte_discard_asymmetry (fun _ => []) 0 1 ['a'] ['X', 'Y'] (by decide) (by decide)⟩

/-- Claim C1 (evidence): with every probe answered `ERROR`, after 10
consecutive failed sync probes the completion callback has not been invoked
and an 11th `AT` probe has been issued; only after the 11th consecutive
failure does the callback fire (exactly once, with a non-null error), with no
12th probe.  The code thus reports the sync failure one probe later than the
claim (and its own comments, UG96.js 631 and 867) state. -/
theorem sync_probe_budget_offbyone :
    (initRun false (List.replicate 10 (some "ERROR"))).cbs = [] ∧
    (initRun false (List.replicate 10 (some "ERROR"))).cmds.count "AT\r\n" = 11 ∧
    (initRun false (List.replicate 11 (some "ERROR"))).cbs =
      [some "Error in AT sync: ERROR"] ∧
    (initRun false (List.replicate 11 (some "ERROR"))).cmds.count "AT\r\n" = 11 := by
  decide

/-- The trace of `init` (no flow control) after the responses leading to the
first `AT+CGATT=1` attach attempt. -/
theorem initRun_attachPfx :
    initRun false attachPfxRs =
      { st := ⟨6, 0, 0, true⟩, cmds := attachPfxCmds, cbs := [], ccid := none } := by
  decide

/-- Claim C8: in the PsAttach state, if the initial attach fails, automatic
operator selection runs (with any responses `o1`, `o2` to `AT+COPS=0` and
`AT+COPS?`), and the three subsequent attach attempts (the blind retry plus
the two backoff retries) all fail, then the completion callback receives the
non-null "unrecoverable" error exactly once and no further attach command is
issued. -/
theorem attach_retry_budget_unrecoverable (e1 e2 e3 e4 : String) (o1 o2 : Option String)
    (h1 : e1 ≠ "OK") (h1e : e1 ≠ "") (h2 : e2 ≠ "OK") (h2e : e2 ≠ "")
    (h3 : e3 ≠ "OK") (h3e : e3 ≠ "") (h4 : e4 ≠ "OK") (h4e : e4 ≠ "") :
    initRun false (attachPfxRs ++ [some e1, o1, o2, some e2, some e3, some e4]) =
      { st := ⟨6, 0, 4, true⟩,
        cmds := attachPfxCmds ++
          ["AT+COPS=0\r\n", "AT+COPS?\r\n", "AT+CGATT=1\r\n", "AT+CGATT=1\r\n",
            "AT+CGATT=1\r\n"],
        cbs := [some ("Unrecoverable Error, PS attachment failed: " ++ e4)],
        ccid := none } := by
  have hsplit : initRun false (attachPfxRs ++ [some e1, o1, o2, some e2, some e3, some e4])
      = [some e1, o1, o2, some e2, some e3, some e4].foldl (initStep false)
          (initRun false attachPfxRs) := by
    simp [initRun, List.foldl_append]
  rw [hsplit, initRun_attachPfx]
  simp only [List.foldl_cons, List.foldl_nil]
  simp [initStep, stepAttach, stepAutoOp, stepListOp, emit,
    h1, h1e, h2, h2e, h3, h3e, h4, h4e, List.append_assoc]

/-- Witness for C8 with all four attach attempts answered `ERROR`. -/
theorem attach_retry_budget_unrecoverable_witness :
    (("ERROR" : String) ≠ "OK" ∧ ("ERROR" : String) ≠ "") ∧
    initRun false
        (attachPfxRs ++ [some "ERROR", none, none, some "ERROR", some "ERROR", some "ERROR"]) =
      { st := ⟨6, 0, 4, true⟩,
        cmds := attachPfxCmds ++
          ["AT+COPS=0\r\n", "AT+COPS?\r\n", "AT+CGATT=1\r\n", "AT+CGATT=1\r\n",
            "AT+CGATT=1\r\n"],
        cbs := [some ("Unrecoverable Error, PS attachment failed: " ++ "ERROR")],
        ccid := none } :=
  ⟨⟨by decide, by decide⟩,
    attach_retry_budget_unrecoverable "ERROR" "ERROR" "ERROR" "ERROR" none none
      (by decide) (by decide) (by decide) (by decide) (by decide) (by decide)
      (by decide) (by decide)⟩

/-- Claim C6 (counterexample): when the PDP-configure phase (`AT+QICSGP`)
times out, `connect` never invokes its completion callback, so it is not
invoked exactly once. -/
theorem connect_timeout_drops_callback :
    connectCbs none none = [] ∧ ¬ (connectCbs none none).length = 1 := by
  decide

/-- Claim C6 (amended): `connect` invokes its callback exactly once whenever
the configure phase yields a non-empty response and never when that phase
times out (or yields a falsy line); and `init` with a failed hardware
flow-control setup invokes its callback twice on an otherwise successful run
(once with the error, once with null at completion). -/
theorem callback_invocation_discipline :
    (∀ r0 r1 : Option String,
        (connectCbs r0 r1).length = if r0 = none ∨ r0 = some "" then 0 else 1) ∧
      (initRun true hwFlowFailRs).cbs =
        [some "HW flow control establismnent failed", none] := by
  constructor
  · intro r0 r1
    match r0 with
    | none => simp [connectCbs]
    | some s =>
      by_cases hs : s = "OK"
      · subst hs
        simp [connectCbs]
      · by_cases hs' : s = ""
        · subst hs'
          simp [connectCbs]
        · simp [connectCbs, hs, hs']
  · decide

/-- Claim C3 (counterexample): with all `MAXSOCKETS` client slots occupied,
`create` returns slot 11, whose state immediately before the call was not
Unused (it force-closes an in-use slot instead of rejecting the request). -/
theorem create_full_table_steals_slot :
    (createM (List.replicate 12 SockState.connected) (List.replicate 12 [])).1 = 11 ∧
      (List.replicate 12 SockState.connected).getD 11 SockState.unused ≠ SockState.unused := by
  decide

theorem getD_firstFree (l : List SockState) :
    l.getD (firstFree l) SockState.unused = SockState.unused := by
  induction l with
  | nil => rfl
  | cons s rest ih =>
    by_cases hs : s = SockState.unused
    · simp [firstFree, hs]
    · simp only [firstFree, hs, if_false, List.getD_cons_succ]
      exact ih

/-- Claim C3 (amended): whenever some client slot is free (the scan stops
below `MAXSOCKETS`), `create` returns the lowest such id, whose state
immediately before the call was Unused; when no client slot is free it
instead force-closes and returns slot `MAXSOCKETS - 1`, whose prior state was
not Unused. -/
theorem create_returns_first_unused_when_free (socks : List SockState)
    (d : List (List Char)) (h : firstFree socks < MAXSOCKETS) :
    (createM socks d).1 = firstFree socks ∧
      socks.getD (firstFree socks) SockState.unused = SockState.unused := by
  refine ⟨?_, getD_firstFree socks⟩
  simp [createM, Nat.not_le.mpr h]

/-- Witness for the amended C3 on a table with one occupied slot. -/
theorem create_returns_first_unused_when_free_witness :
    firstFree [SockState.connected] < MAXSOCKETS ∧
    ((createM [SockState.connected] [[]]).1 = firstFree [SockState.connected] ∧
      [SockState.connected].getD (firstFree [SockState.connected]) SockState.unused
        = SockState.unused) :=
  ⟨by decide, create_returns_first_unused_when_free [SockState.connected] [[]] (by decide)⟩

/-- Claim C4 (counterexample): with the busy flag set, `send` of a
1461-byte payload returns 0, not -1. -/
theorem send_oversize_while_busy_returns_zero :
    1460 < bigPayload.length ∧ (sendM true false [] 0 bigPayload).ret = 0 ∧
      (sendM true false [] 0 bigPayload).ret ≠ -1 := by
  decide

/-- Claim C4 (amended): `send` of a payload longer than 1460 bytes never
performs a write to the AT engine and never accepts the payload: it returns 0
when the busy/engine-busy/Connecting guard fires, and -1 otherwise. -/
theorem send_oversize_rejected_no_write (busy atBusy : Bool) (socks : List SockState)
    (sckt : Nat) (data : String) (h : 1460 < data.length) :
    (sendM busy atBusy socks sckt data).writes = [] ∧
      (sendM busy atBusy socks sckt data).ret =
        (if busy = true ∨ atBusy = true ∨
            socks.getD sckt SockState.unused = SockState.wait then 0 else -1) := by
  unfold sendM
  split_ifs with g1 g2 g3 g4 <;>
    first
      | exact ⟨rfl, rfl⟩
      | exact absurd h g4

/-- Witness for the amended C4 on an established socket with no busy flags. -/
theorem send_oversize_rejected_no_write_witness :
    1460 < bigPayload.length ∧
    ((sendM false false [SockState.connected] 0 bigPayload).writes = [] ∧
      (sendM false false [SockState.connected] 0 bigPayload).ret =
        (if false = true ∨ false = true ∨
            ([SockState.connected] : List SockState).getD 0 SockState.unused
              = SockState.wait then 0 else -1)) :=
  ⟨by decide,
    send_oversize_rejected_no_write false false [SockState.connected] 0 bigPayload (by decide)⟩

/-- Claim C5 (counterexample): after `geoLocStop`, an in-flight poll that
later delivers a well-formed `+QCELLLOC` fix overwrites the cleared cache, so
the cached position does not remain empty. -/
theorem geoloc_late_fix_overwrites :
    (geoCb (geoLocStopM ⟨"1.0,2.0", true⟩) (some "+QCELLLOC: 2.20,48.85")).g.longlat
        = "2.20,48.85" ∧
      ("2.20,48.85" : String) ≠ "" := by
  decide

/-- Claim C5 (amended): `geoLocStop` clears the cached position immediately
and clears the running flag, so no further poll is rescheduled — including
after an in-flight poll's `+QCELLLOC` response and its terminal `OK` — but
such a late well-formed response overwrites the cached position with the
delivered fix. -/
theorem geoloc_stop_then_late_fix (g0 : GeoState) (t : String)
    (ht : strHasPfx "+QCELLLOC:" t = true) :
    (geoLocStopM g0).longlat = "" ∧ (geoLocStopM g0).geoPos = false ∧
    geoCb (geoLocStopM g0) (some t) = ⟨⟨qcellExtract t, false⟩, false, true⟩ ∧
    geoCb ⟨qcellExtract t, false⟩ (some "OK") = ⟨⟨qcellExtract t, false⟩, false, false⟩ := by
  have htOK : ¬ (t = "OK") := by
    intro he
    subst he
    exact absurd ht (by decide)
  refine ⟨rfl, rfl, ?_, rfl⟩
  simp [geoCb, geoLocStopM, htOK, ht]

/-- Witness for the amended C5 on a concrete late fix. -/
theorem geoloc_stop_then_late_fix_witness :
    strHasPfx "+QCELLLOC:" "+QCELLLOC: 1.1,2.2" = true ∧
    ((geoLocStopM ⟨"old", true⟩).longlat = "" ∧ (geoLocStopM ⟨"old", true⟩).geoPos = false ∧
      geoCb (geoLocStopM ⟨"old", true⟩) (some "+QCELLLOC: 1.1,2.2")
        = ⟨⟨qcellExtract "+QCELLLOC: 1.1,2.2", false⟩, false, true⟩ ∧
      geoCb ⟨qcellExtract "+QCELLLOC: 1.1,2.2", false⟩ (some "OK")
        = ⟨⟨qcellExtract "+QCELLLOC: 1.1,2.2", false⟩, false, false⟩) :=
  ⟨by decide, geoloc_stop_then_late_fix ⟨"old", true⟩ "+QCELLLOC: 1.1,2.2" (by decide)⟩

/-- Claim C7: with the engine idle, the socket not Connecting and a non-empty
buffer, `recv(id, n)` for `n ≥ 1` returns the length-at-most-`n` prefix of
the buffered bytes and leaves exactly the rest in the buffer. -/
theorem recv_returns_prefix_and_drains (socks : List SockState)
    (bufs : List (List Char)) (sckt n : Nat) (hb : bufs.getD sckt [] ≠ [])
    (hw : socks.getD sckt SockState.unused ≠ SockState.wait) (hn : 1 ≤ n) :
    recvM false socks bufs sckt n =
        (RecvRet.bytes ((bufs.getD sckt []).take n),
          bufs.set sckt ((bufs.getD sckt []).drop n)) ∧
      ((bufs.getD sckt []).take n).length ≤ n ∧
      (bufs.getD sckt []).take n ++ (bufs.getD sckt []).drop n = bufs.getD sckt [] := by
  refine ⟨?_, ?_, List.take_append_drop _ _⟩
  · unfold recvM
    rw [if_neg (fun hor => hor.elim (fun hf => Bool.false_ne_true hf) hw), if_pos hb]
    by_cases hl : n < (bufs.getD sckt []).length
    · rw [if_pos hl]
    · rw [if_neg hl]
      have h1 : (bufs.getD sckt []).take n = bufs.getD sckt [] :=
        List.take_of_length_le (by omega)
      have h2 : (bufs.getD sckt []).drop n = [] :=
        List.drop_eq_nil_of_le (by omega)
      rw [h1, h2]
  · exact List.length_take_le _ _

/-- Witness for C7 on a three-byte buffer with `n = 2`. -/
theorem recv_returns_prefix_and_drains_witness :
    (([['a', 'b', 'c']] : List (List Char)).getD 0 [] ≠ [] ∧
      ([SockState.connected] : List SockState).getD 0 SockState.unused ≠ SockState.wait ∧
      1 ≤ 2) ∧
    (recvM false [SockState.connected] [['a', 'b', 'c']] 0 2 =
        (RecvRet.bytes (([['a', 'b', 'c']] : List (List Char)).getD 0 [] |>.take 2),
          ([['a', 'b', 'c']] : List (List Char)).set 0
            (([['a', 'b', 'c']] : List (List Char)).getD 0 [] |>.drop 2)) ∧
      ((([['a', 'b', 'c']] : List (List Char)).getD 0 [] |>.take 2)).length ≤ 2 ∧
      (([['a', 'b', 'c']] : List (List Char)).getD 0 [] |>.take 2) ++
          (([['a', 'b', 'c']] : List (List Char)).getD 0 [] |>.drop 2) =
        ([['a', 'b', 'c']] : List (List Char)).getD 0 []) :=
  ⟨⟨by decide, by decide, by decide⟩,
    recv_returns_prefix_and_drains [SockState.connected] [['a', 'b', 'c']] 0 2
      (by decide) (by decide) (by decide)⟩

/-- Claim C9: the `SEND FAIL` and `ERROR` terminal handlers of a send exchange
clear the busy flag, cancel the response guard and unregister the three
transient line handlers, but leave the socket table exactly as it was (the
source compares `socks[sckt]=="tobeclosed"` instead of assigning, so the slot
is not transitioned to Closing). -/
theorem send_fail_paths_preserve_socket_state (sckt : Nat) (e : SendLineEnv) :
    ((sendFailHandlerM sckt e).socks = e.socks ∧
      (sendFailHandlerM sckt e).busy = false ∧
      (sendFailHandlerM sckt e).rspTimerArmed = false ∧
      "SEND OK" ∉ (sendFailHandlerM sckt e).lineHandlers ∧
      "SEND FAIL" ∉ (sendFailHandlerM sckt e).lineHandlers ∧
      "ERROR" ∉ (sendFailHandlerM sckt e).lineHandlers) ∧
    ((sendErrorHandlerM sckt e).socks = e.socks ∧
      (sendErrorHandlerM sckt e).busy = false ∧
      (sendErrorHandlerM sckt e).rspTimerArmed = false ∧
      "SEND OK" ∉ (sendErrorHandlerM sckt e).lineHandlers ∧
      "SEND FAIL" ∉ (sendErrorHandlerM sckt e).lineHandlers ∧
      "ERROR" ∉ (sendErrorHandlerM sckt e).lineHandlers) := by
  refine ⟨⟨rfl, rfl, rfl, ?_, ?_, ?_⟩, ⟨rfl, rfl, rfl, ?_, ?_, ?_⟩⟩ <;>
    simp [sendFailHandlerM, sendErrorHandlerM, unregisterSendLines, List.mem_filter]

end UG96
